import Mathlib

/-!
Verification development for the proxy-platform proxy lifecycle engine.

Shallow embedding of the core Go components:
- `services/proxy-pool/scorer/scorer.go` and `types.go` (quality scorer);
- the scheduler (`IntelligentScheduler`: SelectBestProxy, UpdateProxyUsage,
  AddProxyToPool, RemoveProxyFromPool, format/parseProxyIdentifier);
- `services/proxy-pool/validator/validator.go` (anonymity detection and the
  body phase of `Validate`);
- `services/proxy-pool/providers/webshare/webshare.go` (upstream
  normalization).

Modelling conventions:
- Go strings that undergo structural operations (identifiers, addresses,
  header names/values, bodies) are `List Char` (`GoStr`); strings that are
  only compared for equality (anonymity levels, error text) stay `String`.
- Go float64 values are modelled as `ℚ`; time instants are `ℚ` measured in
  hours, so `time.Since(t).Hours()` at instant `now` is `now - t`, and the
  Go zero time / missing timestamp is `Option.none`.
- The Redis backend is a `RedisState`: the per-address metrics hashes (one
  hash per address, fields optional, matching HSET/HINCRBY semantics where a
  missing field counts as 0), the `proxies:available` sorted set as an
  association list, and a `failing` flag modelling a store that answers every
  command with an error (commands on a failing store leave it unchanged and
  surface an error, which the Go code logs).
-/

/-- Go strings under structural operations are lists of characters. -/
abbrev GoStr := List Char

/-! ## Scorer data model (scorer/scorer.go, scorer/types.go) -/

/-- The Redis hash at `proxy:metrics:<address>`. Each field is optional:
`none` means the field is absent from the hash (HGETALL omits it). Counter
fields hold integers, timestamp fields hold time values (RFC 3339 strings in
Go, their time value here). -/
structure MetricsHash where
  success_count : Option Int
  failure_count : Option Int
  total_latency_ms : Option Int
  anonymity_level : Option String
  last_seen_time : Option ℚ
  last_success_time : Option ℚ
  consecutive_fails : Option Int
deriving DecidableEq

/-- A hash with no fields (the state HSET/HINCRBY start from when the key
is absent). -/
def emptyHash : MetricsHash :=
  ⟨none, none, none, none, none, none, none⟩

/-- validator.ValidationResult. `latencyMs` carries
`result.Latency.Milliseconds()`, the value the scorer adds to the
`total_latency_ms` counter. -/
structure ValidationResult where
  isAvailable : Bool
  latencyMs : Int
  anonymity : String
  errorMessage : String
deriving DecidableEq

/-- providers.ProxyIP: the canonical proxy record. -/
structure ProxyIP where
  id : String
  address : GoStr
  port : Nat
  username : String
  password : String
  country : String
  city : String
  lastCheckedAt : String
  createdAt : String
deriving DecidableEq

/-- scheduler.ScheduleRequest. -/
structure ScheduleRequest where
  countryCode : String
  allowInsecure : Bool
deriving DecidableEq

/-- scheduler.UsageResult. -/
structure UsageResult where
  proxy : ProxyIP
  success : Bool
  latencyMs : Int
  errorMessage : String
deriving DecidableEq

/-- The shared Redis backend: the metrics hash per address, the
`proxies:available` sorted set (member, score), and a flag for a store that
currently answers every command with an error. -/
structure RedisState where
  failing : Bool
  metrics : GoStr → Option MetricsHash
  pool : List (GoStr × ℚ)

/-- Write the metrics hash at one address (the net effect of the HSET /
HINCRBY transaction on that key). -/
def setMetricsHash (st : RedisState) (key : GoStr) (h : MetricsHash) : RedisState :=
  { st with metrics := fun k => if k = key then some h else st.metrics k }

/-- scorer.updateMetrics (scorer.go lines 52-76): the transactional pipeline
on the hash of `proxyIP`. Always sets `last_seen_time`; on success increments
`success_count`, adds the latency to `total_latency_ms`, sets
`last_success_time`, `anonymity_level`, and resets `consecutive_fails` to 0;
on failure increments `failure_count` and `consecutive_fails`.
If the store is failing, `pipe.Exec` errors, no write is applied, and the Go
code logs the error. -/
def updateMetrics (st : RedisState) (proxyIP : GoStr) (result : ValidationResult)
    (now : ℚ) : RedisState :=
  if st.failing then st else
  let h0 := (st.metrics proxyIP).getD emptyHash
  let h1 := { h0 with last_seen_time := some now }
  let h2 :=
    if result.isAvailable then
      { h1 with
        success_count := some (h1.success_count.getD 0 + 1)
        total_latency_ms := some (h1.total_latency_ms.getD 0 + result.latencyMs)
        last_success_time := some now
        anonymity_level := some result.anonymity
        consecutive_fails := some 0 }
    else
      { h1 with
        failure_count := some (h1.failure_count.getD 0 + 1)
        consecutive_fails := some (h1.consecutive_fails.getD 0 + 1) }
  setMetricsHash st proxyIP h2

/-- scorer.proxyMetrics: the parsed form `getMetrics` returns. Absent or
unparseable counters parse to 0, an absent `anonymity_level` reads as the Go
empty string, absent or unparseable timestamps read as the Go zero time
(`none` here). -/
structure ProxyMetrics where
  successCount : Int
  failureCount : Int
  totalLatencyMs : Int
  anonymityLevel : String
  lastSeenTime : Option ℚ
  lastSuccessTime : Option ℚ
  consecutiveFails : Int
deriving DecidableEq

/-- Errors `getMetrics` can surface: `redisNil` (key absent) or a store
error. -/
inductive GetMetricsErr where
  | redisNil
  | storeErr
deriving DecidableEq

/-- The field-parsing step of scorer.getMetrics (its `parseInt` /
`parseTime` helpers with their 0 / zero-time defaults). -/
def parseHash (h : MetricsHash) : ProxyMetrics :=
  { successCount := h.success_count.getD 0
    failureCount := h.failure_count.getD 0
    totalLatencyMs := h.total_latency_ms.getD 0
    anonymityLevel := h.anonymity_level.getD ""
    lastSeenTime := h.last_seen_time
    lastSuccessTime := h.last_success_time
    consecutiveFails := h.consecutive_fails.getD 0 }

/-- scorer.getMetrics (scorer.go lines 114-153): HGETALL, `redis.Nil` when
the key holds no data, otherwise the parsed metrics. Reads never modify the
store, so the state is returned untouched. -/
def getMetrics (st : RedisState) (proxyIP : GoStr) :
    Except GetMetricsErr ProxyMetrics × RedisState :=
  if st.failing then (.error .storeErr, st)
  else
    match st.metrics proxyIP with
    | none => (.error .redisNil, st)
    | some h => (.ok (parseHash h), st)

/-! Scoring constants (scorer/types.go). -/

def initialScore : ℚ := 0.5
def maxLatencyMs : ℚ := 5000
def recentHours : ℚ := 24
def maxConsecutiveFails : ℚ := 5
def weightSuccessRate : ℚ := 0.50
def weightLatency : ℚ := 0.30
def weightAnonymity : ℚ := 0.15
def weightStability : ℚ := 0.05

/-- scorer.AnonymityScores. -/
def AnonymityScores : List (String × ℚ) :=
  [("elite", 1.0), ("anonymous", 0.7), ("transparent", 0.3), ("unknown", 0.1)]

/-- scorer.calculateSuccessRateScore. -/
def calculateSuccessRateScore (m : ProxyMetrics) : ℚ :=
  let total := m.successCount + m.failureCount
  if total = 0 then 0 else (m.successCount : ℚ) / (total : ℚ)

/-- scorer.calculateLatencyScore. -/
def calculateLatencyScore (m : ProxyMetrics) : ℚ :=
  if m.successCount = 0 then 0
  else
    let avgLatency := (m.totalLatencyMs : ℚ) / (m.successCount : ℚ)
    max 0 (1 - avgLatency / maxLatencyMs)

/-- scorer.calculateAnonymityScore: map lookup with the `"unknown"` entry as
the default for levels not in the map. -/
def calculateAnonymityScore (m : ProxyMetrics) : ℚ :=
  match AnonymityScores.lookup m.anonymityLevel with
  | some score => score
  | none => (AnonymityScores.lookup "unknown").getD 0

/-- scorer.calculateStabilityScore at time `now`. `time.Since(t).Hours()` is
`now - t`; the recency bonus applies only when `last_success_time` is set
(not the zero time) and the success is less than `recentHours` old. -/
def calculateStabilityScore (now : ℚ) (m : ProxyMetrics) : ℚ :=
  let failPenalty := min 1 ((m.consecutiveFails : ℚ) / maxConsecutiveFails)
  let recentSuccessBonus : ℚ :=
    match m.lastSuccessTime with
    | none => 0
    | some t =>
      let hoursSinceSuccess := now - t
      if hoursSinceSuccess < recentHours then 1 - hoursSinceSuccess / recentHours
      else 0
  max 0 ((1 - failPenalty) * (0.5 + 0.5 * recentSuccessBonus))

/-- The weighted sum and clamp of scorer.CalculateScore, as a function of
the fetched metrics. -/
def calculateScoreFromMetrics (now : ℚ) (m : ProxyMetrics) : ℚ :=
  let finalScore :=
    calculateSuccessRateScore m * weightSuccessRate +
    calculateLatencyScore m * weightLatency +
    calculateAnonymityScore m * weightAnonymity +
    calculateStabilityScore now m * weightStability
  max 0 (min 1 finalScore)

/-- scorer.CalculateScore (scorer.go lines 80-111): `redis.Nil` yields the
initial score, any other store error yields 0.0, a record with no samples
yields the initial score, otherwise the weighted clamped sum. The state
comes back alongside the score since the Go method talks to the store. -/
def CalculateScore (st : RedisState) (proxyIP : GoStr) (now : ℚ) : ℚ × RedisState :=
  match getMetrics st proxyIP with
  | (.error .redisNil, st') => (initialScore, st')
  | (.error .storeErr, st') => (0, st')
  | (.ok m, st') =>
    if m.successCount + m.failureCount = 0 then (initialScore, st')
    else (calculateScoreFromMetrics now m, st')

/-- scorer.RemoveProxyMetrics: DEL on the metrics key; on a failing store the
command errors and the state is unchanged. -/
def RemoveProxyMetrics (st : RedisState) (proxyIP : GoStr) : RedisState :=
  if st.failing then st
  else { st with metrics := fun k => if k = proxyIP then none else st.metrics k }

/-! ## Scheduler (IntelligentScheduler) -/

/-- The decimal digit character for `d < 10` (the digits `fmt.Sprintf "%d"`
emits). -/
def digitChar (d : Nat) : Char :=
  if d = 0 then '0' else if d = 1 then '1' else if d = 2 then '2'
  else if d = 3 then '3' else if d = 4 then '4' else if d = 5 then '5'
  else if d = 6 then '6' else if d = 7 then '7' else if d = 8 then '8'
  else '9'

/-- Decimal digits of `n`, most significant first, with explicit fuel so the
definition is structurally recursive (any fuel above `n` suffices). -/
def natDigitsAux : Nat → Nat → List Char
  | 0, _ => []
  | fuel + 1, n =>
    if n < 10 then [digitChar n]
    else natDigitsAux fuel (n / 10) ++ [digitChar (n % 10)]

/-- Decimal rendering of a natural number, as `fmt.Sprintf "%d"` renders a
uint16 (no sign, no padding). -/
def natDigits (n : Nat) : List Char :=
  natDigitsAux (n + 1) n

/-- The numeric value of a digit string (the accumulator loop of
`strconv.ParseUint` in base 10). -/
def digitsToNat (s : GoStr) : Nat :=
  s.foldl (fun acc c => 10 * acc + (c.toNat - 48)) 0

/-- strconv.ParseUint(s, 10, 16): fails on an empty string, on any
non-digit character, and on values above 65535 (the 16-bit range error);
otherwise returns the decimal value. Note it accepts 0. -/
def parseUint16 (s : GoStr) : Option Nat :=
  if s = [] then none
  else if s.all Char.isDigit then
    let v := digitsToNat s
    if v ≤ 65535 then some v else none
  else none

/-- Split a string at its last colon: `some (before, after)` when a colon
exists (mirrors `strings.LastIndex(identifier, ":")` plus the two slices),
`none` otherwise. -/
def lastColonSplit : GoStr → Option (GoStr × GoStr)
  | [] => none
  | c :: cs =>
    match lastColonSplit cs with
    | some (before, after) => some (c :: before, after)
    | none => if c = ':' then some ([], cs) else none

/-- scheduler.formatProxyIdentifier: `fmt.Sprintf("%s:%d", ip, port)`. -/
def formatProxyIdentifier (ip : GoStr) (port : Nat) : GoStr :=
  ip ++ ':' :: natDigits port

/-- Errors on the scheduler's selection path: no colon in the member, a bad
port, the `redis.Nil` sentinel for an empty pool, and a store error. -/
inductive SchedErr where
  | invalidFormat
  | invalidPort
  | redisNil
  | storeErr
deriving DecidableEq

/-- scheduler.parseProxyIdentifier: split at the last colon, parse the right
side with `strconv.ParseUint(portStr, 10, 16)`. -/
def parseProxyIdentifier (identifier : GoStr) : Except SchedErr (GoStr × Nat) :=
  match lastColonSplit identifier with
  | none => .error .invalidFormat
  | some (ip, portStr) =>
    match parseUint16 portStr with
    | none => .error .invalidPort
    | some portVal => .ok (ip, portVal)

/-- Byte-order comparison of members (the order Redis uses to break score
ties in a sorted set). -/
def goStrLt : GoStr → GoStr → Bool
  | [], [] => false
  | [], _ :: _ => true
  | _ :: _, [] => false
  | a :: as, b :: bs =>
    if a.toNat < b.toNat then true
    else if b.toNat < a.toNat then false
    else goStrLt as bs

/-- `x` precedes `y` in ZREVRANGE order: higher score first, ties broken by
descending member byte order. -/
def zBetter (x y : GoStr × ℚ) : Bool :=
  if y.2 < x.2 then true
  else if x.2 = y.2 then goStrLt y.1 x.1
  else false

/-- The single element `ZRevRange key 0 0` returns: the member greatest in
ZREVRANGE order, or `none` when the set is empty. -/
def zTop : List (GoStr × ℚ) → Option (GoStr × ℚ)
  | [] => none
  | x :: xs =>
    match zTop xs with
    | none => some x
    | some y => if zBetter x y then some x else some y

/-- ZADD: upsert the member's score, leaving other members alone. The list
order is immaterial (the set is read only through `zTop` and `zscore`). -/
def zadd (pool : List (GoStr × ℚ)) (member : GoStr) (score : ℚ) :
    List (GoStr × ℚ) :=
  pool.filter (fun p => decide (p.1 ≠ member)) ++ [(member, score)]

/-- ZREM: drop the member. -/
def zrem (pool : List (GoStr × ℚ)) (member : GoStr) : List (GoStr × ℚ) :=
  pool.filter (fun p => decide (p.1 ≠ member))

/-- ZSCORE: the member's score, if present. -/
def zscore : List (GoStr × ℚ) → GoStr → Option ℚ
  | [], _ => none
  | (k, v) :: rest, member => if k = member then some v else zscore rest member

/-- The ProxyIP the scheduler returns from a selection: only `Address` and
`Port` are populated (the Go code builds `&providers.ProxyIP{Address: ip,
Port: portStr}`, leaving every other field at its zero value). -/
def selectedProxy (ip : GoStr) (port : Nat) : ProxyIP :=
  ⟨"", ip, port, "", "", "", "", "", ""⟩

/-- scheduler.SelectBestProxy (the request parameter is ignored by the
code): ZRevRange 0 0; an empty reply is `redis.Nil` (the no-proxy sentinel);
the single member is parsed, a parse failure is logged and returned as the
call's error. -/
def SelectBestProxy (st : RedisState) (_req : ScheduleRequest) :
    Except SchedErr ProxyIP :=
  if st.failing then .error .storeErr
  else
    match zTop st.pool with
    | none => .error .redisNil
    | some (proxyIdentifier, _) =>
      match parseProxyIdentifier proxyIdentifier with
      | .error e => .error e
      | .ok (ip, portVal) => .ok (selectedProxy ip portVal)

/-- The lifting of a UsageResult into a ValidationResult performed at the
top of scheduler.UpdateProxyUsage: anonymity is not observable on the usage
path and is set to `validator.Unknown`. -/
def liftUsage (result : UsageResult) : ValidationResult :=
  { isAvailable := result.success
    latencyMs := result.latencyMs
    errorMessage := result.errorMessage
    anonymity := "unknown" }

/-- ZADD on the state; on a failing store the command errors (logged in Go)
and nothing changes. -/
def zAddState (st : RedisState) (member : GoStr) (score : ℚ) : RedisState :=
  if st.failing then st else { st with pool := zadd st.pool member score }

/-- ZREM on the state; on a failing store the command errors (logged) and
nothing changes. -/
def zRemState (st : RedisState) (member : GoStr) : RedisState :=
  if st.failing then st else { st with pool := zrem st.pool member }

/-- scheduler.UpdateProxyUsage: lift the usage result, update the metrics,
recompute the score, and ZADD the `"<address>:<port>"` member with the new
score. -/
def UpdateProxyUsage (st : RedisState) (result : UsageResult) (now : ℚ) :
    RedisState :=
  let validationRes := liftUsage result
  let st1 := updateMetrics st result.proxy.address validationRes now
  let scored := CalculateScore st1 result.proxy.address now
  let proxyIdentifier := formatProxyIdentifier result.proxy.address result.proxy.port
  zAddState scored.2 proxyIdentifier scored.1

/-- scheduler.AddProxyToPool: read the current score and ZADD the member. -/
def AddProxyToPool (st : RedisState) (proxy : ProxyIP) (now : ℚ) : RedisState :=
  let scored := CalculateScore st proxy.address now
  zAddState scored.2 (formatProxyIdentifier proxy.address proxy.port) scored.1

/-- scheduler.RemoveProxyFromPool: ZREM the member, then delete the metrics
hash for the address. -/
def RemoveProxyFromPool (st : RedisState) (proxy : ProxyIP) : RedisState :=
  let st1 := zRemState st (formatProxyIdentifier proxy.address proxy.port)
  RemoveProxyMetrics st1 proxy.address

/-! ## Validator (validator/validator.go) -/

/-- validator.httpbinResponse: the decoded reflection body, `origin` plus
the echoed header map (a Go `map[string]string`, carried here as its list of
entries; key lookups are entry-wise equality, value scans visit every
entry). -/
structure HttpbinResponse where
  origin : GoStr
  headers : List (GoStr × GoStr)

/-- validator.CheckTarget. -/
structure CheckTarget where
  url : GoStr
  mustContain : GoStr

/-- A fetched probe body: its raw text (what `strings.Contains` scans) and
the outcome `json.Unmarshal` produces on it — `none` when the text is not
decodable as the expected JSON shape. -/
structure RawBody where
  text : GoStr
  decoded : Option HttpbinResponse

/-- strings.Contains(s, substr): substring containment on Go strings. -/
def goContains (s substr : GoStr) : Bool :=
  decide (substr <:+: s)

/-- The literal header-key list of validator.detectAnonymity (note: exact
strings, not case-insensitive matching). -/
def proxyHeaderKeys : List GoStr :=
  ["Via".data, "via".data, "X-Forwarded-For".data, "x-forwarded-for".data,
   "Forwarded".data, "forwarded".data, "X-Proxy-Id".data, "Proxy-Connection".data]

/-- validator.detectAnonymity (validator.go lines 143-181). An undecodable
body is `unknown`. Otherwise: transparent when the validator's public IP is
non-empty and a substring of some header value; else anonymous when one of
the literal `proxyHeaderKeys` is present in the header map; else elite. -/
def detectAnonymity (publicIP : GoStr) (decoded : Option HttpbinResponse) : String :=
  match decoded with
  | none => "unknown"
  | some respData =>
    let isTransparent :=
      decide (publicIP ≠ []) &&
        respData.headers.any (fun kv => goContains kv.2 publicIP)
    let hasProxyHeaders :=
      proxyHeaderKeys.any (fun key => respData.headers.any (fun kv => kv.1 = key))
    if isTransparent then "transparent"
    else if hasProxyHeaders then "anonymous"
    else "elite"

/-- Steps 7-8 of validator.Validate (the body phase, after the 200-status
check and the successful body read): the `must_contain` check, then the
anonymity classification; a passing body always yields `IsAvailable = true`
regardless of how classification went. -/
def validateBodyPhase (publicIP : GoStr) (target : CheckTarget)
    (latencyMs : Int) (body : RawBody) : ValidationResult :=
  if target.mustContain ≠ [] && !(goContains body.text target.mustContain) then
    { isAvailable := false, errorMessage := "response content mismatch"
      latencyMs := latencyMs, anonymity := "" }
  else
    { isAvailable := true
      latencyMs := latencyMs
      anonymity := detectAnonymity publicIP body.decoded
      errorMessage := "" }

/-- Modelled from the spec's words for claim C4 (spec §4.2 step 4): the
classification the claim asserts, with the proxy-header key comparison done
case-insensitively against the five-key set {Via, X-Forwarded-For,
Forwarded, X-Proxy-Id, Proxy-Connection}. -/
def claimedDetectAnonymity (publicIP : GoStr) (decoded : Option HttpbinResponse) :
    String :=
  match decoded with
  | none => "unknown"
  | some respData =>
    let claimedKeys : List GoStr :=
      ["Via".data, "X-Forwarded-For".data, "Forwarded".data,
       "X-Proxy-Id".data, "Proxy-Connection".data]
    if decide (publicIP ≠ []) &&
        respData.headers.any (fun kv => goContains kv.2 publicIP) then
      "transparent"
    else if respData.headers.any (fun kv =>
        claimedKeys.any (fun key => kv.1.map Char.toLower = key.map Char.toLower)) then
      "anonymous"
    else "elite"

/-! ## Webshare provider (providers/webshare/webshare.go) -/

/-- webshare.Proxy: one entry of the upstream `results` array. -/
structure WebshareProxy where
  id : String
  username : String
  password : String
  proxyAddress : GoStr
  port : Nat
  valid : Bool
  lastVerification : String
  countryCode : String
  cityName : String
  createdAt : String
deriving DecidableEq

/-- webshare.Response: the decoded upstream payload. -/
structure WebshareResponse where
  count : Int
  next : Option String
  previous : Option String
  results : List WebshareProxy

/-- The per-entry normalization inside webshare.toProxyIPs. -/
def toProxyIP (p : WebshareProxy) : ProxyIP :=
  { id := p.id
    address := p.proxyAddress
    port := p.port
    username := p.username
    password := p.password
    country := p.countryCode
    city := p.cityName
    lastCheckedAt := p.lastVerification
    createdAt := p.createdAt }

/-- webshare.toProxyIPs (webshare.go lines 72-93): skip entries with
`valid == false`, normalize the rest in order. -/
def toProxyIPs : List WebshareProxy → List ProxyIP
  | [] => []
  | p :: ps => if p.valid then toProxyIP p :: toProxyIPs ps else toProxyIPs ps

/-- The successfully-decoded tail of webshare.GetProxyList (webshare.go
lines 62-69): once the 200-status response decodes into a Response, the
fetch returns exactly the normalization of its results. -/
def getProxyListFromResponse (resp : WebshareResponse) : List ProxyIP :=
  toProxyIPs resp.results

/-! ## Spec-side score model (for claim C1)

Definitions written from the spec's words (spec §4.3 "Score formula"), to be
compared with the source-derived `calculateScoreFromMetrics`. -/

/-- Spec: `successRate = success_count / (success_count + failure_count)`. -/
def specSuccessRate (m : ProxyMetrics) : ℚ :=
  (m.successCount : ℚ) / ((m.successCount + m.failureCount : Int) : ℚ)

/-- Spec: `latency = max(0, 1 − avg_latency_ms / 5000)`, 0 when
`success_count = 0`. -/
def specLatency (m : ProxyMetrics) : ℚ :=
  if m.successCount = 0 then 0
  else max 0 (1 - ((m.totalLatencyMs : ℚ) / (m.successCount : ℚ)) / 5000)

/-- Spec: elite→1.0, anonymous→0.7, transparent→0.3, unknown→0.1, with a
missing key treated as unknown. -/
def specAnonymity (m : ProxyMetrics) : ℚ :=
  if m.anonymityLevel = "elite" then 1.0
  else if m.anonymityLevel = "anonymous" then 0.7
  else if m.anonymityLevel = "transparent" then 0.3
  else 0.1

/-- Spec: `recencyBonus = max(0, 1 − hoursSince(last_success_at) / 24)` when
`last_success_at` is set, else 0. -/
def specRecencyBonus (now : ℚ) (m : ProxyMetrics) : ℚ :=
  match m.lastSuccessTime with
  | none => 0
  | some t => max 0 (1 - (now - t) / 24)

/-- Spec: `stability = (1 − min(1, consecutive_failures / 5)) · (0.5 + 0.5 ·
recencyBonus)`. -/
def specStability (now : ℚ) (m : ProxyMetrics) : ℚ :=
  (1 - min 1 ((m.consecutiveFails : ℚ) / 5)) * (0.5 + 0.5 * specRecencyBonus now m)

/-- Spec: `score = clamp([0,1], 0.50·successRate + 0.30·latency +
0.15·anonymity + 0.05·stability)`. -/
def specScore (now : ℚ) (m : ProxyMetrics) : ℚ :=
  max 0 (min 1 (0.50 * specSuccessRate m + 0.30 * specLatency m +
    0.15 * specAnonymity m + 0.05 * specStability now m))

/-- Modelled from the spec's words for claim C3 (spec §4.4 SelectBest): the
member filter the claim asserts on the anonymity axis — anonymity at least
elite unless `allow_insecure` — with anonymity metadata fetched from the
per-address metrics. -/
def specAnonymityFilterOK (st : RedisState) (req : ScheduleRequest)
    (address : GoStr) : Prop :=
  req.allowInsecure = true ∨
    (∃ h, st.metrics address = some h ∧ (parseHash h).anonymityLevel = "elite")

/-! ## Result sequences (for the cold-start properties) -/

/-- A store with no metrics and an empty pool: the cold-start state. -/
def freshStore : RedisState :=
  ⟨false, fun _ => none, []⟩

/-- Apply a sequence of validation results (each with its timestamp) for one
address, in order, through `updateMetrics`. -/
def applyResults (st : RedisState) (ip : GoStr) :
    List (ValidationResult × ℚ) → RedisState
  | [] => st
  | (r, t) :: rest => applyResults (updateMetrics st ip r t) ip rest

/-- Every result in the sequence is a failure. -/
def allFailures (rs : List (ValidationResult × ℚ)) : Prop :=
  ∀ x ∈ rs, x.1.isAvailable = false

/-- The score the scorer computes for `ip` after a result sequence from the
cold start. -/
def scoreAfterResults (ip : GoStr) (rs : List (ValidationResult × ℚ)) (now : ℚ) : ℚ :=
  (CalculateScore (applyResults freshStore ip rs) ip now).1

/-- The metrics hash reached after `k ≥ 1` consecutive failures from the
cold start (`tl` is the timestamp of the last failure). -/
def failHash (k : Int) (tl : ℚ) : MetricsHash :=
  ⟨none, some k, none, none, some tl, none, some k⟩

/-- Closed form of the score after `k ≥ 1` consecutive failures from the
cold start. -/
def failScore (k : ℕ) : ℚ :=
  0.1 * 0.15 + (1 - min 1 ((k : ℚ) / 5)) * 0.5 * 0.05

/-- The shape of the store reached after `k` consecutive failures for `ip`
from the cold start: no hash at all for `k = 0`, otherwise the failure-only
hash with both counters at `k` (for some last-seen timestamp). -/
def FailInv (ip : GoStr) (st : RedisState) (k : Nat) : Prop :=
  st.failing = false ∧
    ((k = 0 ∧ st.metrics ip = none) ∨
      (0 < k ∧ ∃ tl, st.metrics ip = some (failHash (k : Int) tl)))

/-! ## Concrete states used by witnesses and counterexamples -/

/-- The address used in concrete scenarios. -/
def sampleIP : GoStr := "1.2.3.4".data

/-- The seeded "good proxy" metrics of spec §8 scenario 1: success=100,
failure=5, total_latency_ms=20000, anonymity=elite, consecutive_fails=0,
last success one hour before the probe time (here: at instant 0, scored at
instant 1). -/
def goodSeedHash : MetricsHash :=
  { success_count := some 100, failure_count := some 5
    total_latency_ms := some 20000, anonymity_level := some "elite"
    last_seen_time := none, last_success_time := some 0
    consecutive_fails := some 0 }

/-- A store seeded with the good-proxy metrics for `sampleIP`. -/
def goodSeedStore : RedisState :=
  ⟨false, fun k => if k = sampleIP then some goodSeedHash else none, []⟩

/-- A transparent-proxy metrics hash (one successful probe that classified
the proxy as transparent). -/
def transparentHash : MetricsHash :=
  { success_count := some 10, failure_count := some 0
    total_latency_ms := some 1000, anonymity_level := some "transparent"
    last_seen_time := some 0, last_success_time := some 0
    consecutive_fails := some 0 }

/-- Store for the selection counterexample: a single live-pool member
`9.9.9.9:8080` whose per-address metrics classify it as transparent. -/
def transparentStore : RedisState :=
  ⟨false, fun k => if k = "9.9.9.9".data then some transparentHash else none,
   [(formatProxyIdentifier ("9.9.9.9".data) 8080, 0.9)]⟩

/-- A selection request with no country filter and `allow_insecure` not
set. -/
def secureRequest : ScheduleRequest := ⟨"", false⟩

/-- A concrete failure result (a probe that timed out). -/
def sampleFailure : ValidationResult :=
  ⟨false, 0, "", "context deadline exceeded"⟩

/-- A concrete success result (a 100 ms elite probe). -/
def sampleSuccess : ValidationResult :=
  ⟨true, 100, "elite", ""⟩

/-- A concrete usage result for `2.2.2.2:8888`: one successful use at 100 ms. -/
def sampleUsage : UsageResult :=
  ⟨⟨"", "2.2.2.2".data, 8888, "", "", "", "", "", ""⟩, true, 100, ""⟩

/-- The reflection body of a proxy that echoes `PROXY-CONNECTION` (upper
case) and leaks nothing else. -/
def upperCaseHeaderBody : HttpbinResponse :=
  ⟨"5.5.5.5".data, [("PROXY-CONNECTION".data, "keep-alive".data)]⟩

/-- Five consecutive probe failures, all at instant 0. -/
def fiveFailures : List (ValidationResult × ℚ) :=
  List.replicate 5 (sampleFailure, 0)

/-! ## Helper lemmas: decimal formatting and identifier parsing -/

theorem digitChar_isDigit (d : Nat) (hd : d < 10) : (digitChar d).isDigit = true := by
  interval_cases d <;> rfl

theorem digitChar_toNat (d : Nat) (hd : d < 10) : (digitChar d).toNat - 48 = d := by
  interval_cases d <;> rfl

theorem digitsToNat_append_singleton (l : GoStr) (c : Char) :
    digitsToNat (l ++ [c]) = 10 * digitsToNat l + (c.toNat - 48) := by
  simp [digitsToNat, List.foldl_append]

theorem natDigitsAux_ne_nil (fuel n : Nat) (h : n < fuel) :
    natDigitsAux fuel n ≠ [] := by
  match fuel with
  | 0 => omega
  | fuel + 1 =>
    simp only [natDigitsAux]
    split
    · simp
    · simp

theorem natDigitsAux_isDigit (fuel : Nat) :
    ∀ n, n < fuel → ∀ c ∈ natDigitsAux fuel n, c.isDigit = true := by
  induction fuel with
  | zero => omega
  | succ fuel ih =>
    intro n hn c hc
    simp only [natDigitsAux] at hc
    split at hc
    · simp at hc
      subst hc
      exact digitChar_isDigit n (by omega)
    · rename_i hbig
      rcases List.mem_append.1 hc with h1 | h1
      · exact ih (n / 10) (by omega) c h1
      · simp at h1
        subst h1
        exact digitChar_isDigit (n % 10) (by omega)

theorem digitsToNat_natDigitsAux (fuel : Nat) :
    ∀ n, n < fuel → digitsToNat (natDigitsAux fuel n) = n := by
  induction fuel with
  | zero => omega
  | succ fuel ih =>
    intro n hn
    simp only [natDigitsAux]
    split
    · rename_i hsmall
      show digitsToNat ([] ++ [digitChar n]) = n
      rw [digitsToNat_append_singleton, digitChar_toNat n hsmall]
      simp [digitsToNat]
    · rename_i hbig
      rw [digitsToNat_append_singleton, ih (n / 10) (by omega),
        digitChar_toNat (n % 10) (by omega)]
      omega

theorem natDigits_isDigit (n : Nat) : ∀ c ∈ natDigits n, c.isDigit = true :=
  natDigitsAux_isDigit (n + 1) n (by omega)

theorem natDigits_ne_nil (n : Nat) : natDigits n ≠ [] :=
  natDigitsAux_ne_nil (n + 1) n (by omega)

theorem digitsToNat_natDigits (n : Nat) : digitsToNat (natDigits n) = n :=
  digitsToNat_natDigitsAux (n + 1) n (by omega)

theorem colon_not_mem_natDigits (n : Nat) : ':' ∉ natDigits n := by
  intro hmem
  have := natDigits_isDigit n ':' hmem
  simp [Char.isDigit] at this

theorem parseUint16_natDigits (n : Nat) (h : n ≤ 65535) :
    parseUint16 (natDigits n) = some n := by
  unfold parseUint16
  rw [if_neg (natDigits_ne_nil n)]
  rw [if_pos (List.all_eq_true.2 (natDigits_isDigit n))]
  simp only [digitsToNat_natDigits]
  rw [if_pos h]

theorem lastColonSplit_of_not_mem (l : GoStr) (h : ':' ∉ l) :
    lastColonSplit l = none := by
  induction l with
  | nil => rfl
  | cons c cs ih =>
    simp only [List.mem_cons, not_or] at h
    simp only [lastColonSplit, ih h.2]
    rw [if_neg (fun hc => h.1 hc.symm)]

theorem lastColonSplit_append (a ds : GoStr) (h : ':' ∉ ds) :
    lastColonSplit (a ++ ':' :: ds) = some (a, ds) := by
  induction a with
  | nil =>
    simp [lastColonSplit, lastColonSplit_of_not_mem ds h]
  | cons c cs ih =>
    simp only [List.cons_append, lastColonSplit, List.append_eq, ih]

theorem parse_format_roundtrip (addr : GoStr) (port : Nat) (h : port ≤ 65535) :
    parseProxyIdentifier (formatProxyIdentifier addr port) = .ok (addr, port) := by
  unfold formatProxyIdentifier parseProxyIdentifier
  rw [lastColonSplit_append addr (natDigits port) (colon_not_mem_natDigits port)]
  dsimp only
  rw [parseUint16_natDigits port h]

theorem parseProxyIdentifier_no_colon (identifier : GoStr) (h : ':' ∉ identifier) :
    parseProxyIdentifier identifier = .error .invalidFormat := by
  unfold parseProxyIdentifier
  rw [lastColonSplit_of_not_mem identifier h]

theorem parseProxyIdentifier_not_digits (a ds : GoStr) (hcolon : ':' ∉ ds)
    (hds : ds.all Char.isDigit = false) :
    parseProxyIdentifier (a ++ ':' :: ds) = .error .invalidPort := by
  unfold parseProxyIdentifier
  rw [lastColonSplit_append a ds hcolon]
  dsimp only
  unfold parseUint16
  rcases eq_or_ne ds [] with rfl | hne
  · simp at hds
  · rw [if_neg hne, if_neg (by simp [hds])]

theorem parseProxyIdentifier_overflow (a ds : GoStr) (hcolon : ':' ∉ ds)
    (hbig : 65535 < digitsToNat ds) :
    parseProxyIdentifier (a ++ ':' :: ds) = .error .invalidPort := by
  unfold parseProxyIdentifier
  rw [lastColonSplit_append a ds hcolon]
  dsimp only
  unfold parseUint16
  rcases eq_or_ne ds [] with rfl | hne
  · simp [digitsToNat] at hbig
  · rw [if_neg hne]
    by_cases hall : List.all ds Char.isDigit = true
    · have hnle : ¬ digitsToNat ds ≤ 65535 := by omega
      simp [hall, hnle]
    · simp [hall]

theorem parseProxyIdentifier_empty_port (a : GoStr) :
    parseProxyIdentifier (a ++ [':']) = .error .invalidPort := by
  unfold parseProxyIdentifier
  have hsplit : a ++ [':'] = a ++ ':' :: ([] : GoStr) := rfl
  rw [hsplit, lastColonSplit_append a [] (by simp)]
  rfl

theorem parseProxyIdentifier_ok_digits (a ds : GoStr) (hcolon : ':' ∉ ds)
    (hne : ds ≠ []) (hds : ds.all Char.isDigit = true)
    (hle : digitsToNat ds ≤ 65535) :
    parseProxyIdentifier (a ++ ':' :: ds) = .ok (a, digitsToNat ds) := by
  unfold parseProxyIdentifier
  rw [lastColonSplit_append a ds hcolon]
  dsimp only
  unfold parseUint16
  rw [if_neg hne, if_pos hds, if_pos hle]

/-! ## Helper lemmas: sorted set -/

theorem zBetter_true_le (x y : GoStr × ℚ) (h : zBetter x y = true) : y.2 ≤ x.2 := by
  unfold zBetter at h
  by_cases h1 : y.2 < x.2
  · exact le_of_lt h1
  · rw [if_neg h1] at h
    by_cases h2 : x.2 = y.2
    · exact le_of_eq h2.symm
    · rw [if_neg h2] at h
      exact absurd h (by simp)

theorem zBetter_false_le (x y : GoStr × ℚ) (h : zBetter x y = false) : x.2 ≤ y.2 := by
  unfold zBetter at h
  by_cases h1 : y.2 < x.2
  · rw [if_pos h1] at h
    exact absurd h (by simp)
  · exact le_of_not_lt h1

theorem zTop_spec (l : List (GoStr × ℚ)) :
    (zTop l = none ∧ l = []) ∨
      ∃ y, zTop l = some y ∧ y ∈ l ∧ ∀ x ∈ l, x.2 ≤ y.2 := by
  induction l with
  | nil => exact Or.inl ⟨rfl, rfl⟩
  | cons x xs ih =>
    right
    rcases ih with ⟨hnone, rfl⟩ | ⟨y, hy, hmem, hmax⟩
    · refine ⟨x, ?_, by simp, by simp⟩
      simp [zTop]
    · by_cases hb : zBetter x y = true
      · refine ⟨x, ?_, by simp, ?_⟩
        · simp only [zTop, hy, hb, if_true]
        · intro q hq
          rcases List.mem_cons.1 hq with rfl | hq'
          · exact le_refl _
          · exact le_trans (hmax q hq') (zBetter_true_le x y hb)
      · have hb' : zBetter x y = false := by simpa using hb
        refine ⟨y, ?_, List.mem_cons_of_mem x hmem, ?_⟩
        · simp only [zTop, hy]
          rw [if_neg (by simp [hb'])]
        · intro q hq
          rcases List.mem_cons.1 hq with rfl | hq'
          · exact zBetter_false_le q y hb'
          · exact hmax q hq'

theorem zTop_nil_iff (l : List (GoStr × ℚ)) : zTop l = none ↔ l = [] := by
  constructor
  · intro h
    rcases zTop_spec l with ⟨_, hl⟩ | ⟨y, hy, _, _⟩
    · exact hl
    · rw [h] at hy
      exact absurd hy (by simp)
  · intro h
    subst h
    rfl

theorem zscore_append_of_none (l1 l2 : List (GoStr × ℚ)) (m : GoStr)
    (h : zscore l1 m = none) : zscore (l1 ++ l2) m = zscore l2 m := by
  induction l1 with
  | nil => rfl
  | cons x xs ih =>
    obtain ⟨k, v⟩ := x
    simp only [zscore] at h
    split at h
    · simp at h
    · simp only [List.cons_append, zscore]
      rw [if_neg (by assumption)]
      exact ih h

theorem zscore_filter_ne (pool : List (GoStr × ℚ)) (m : GoStr) :
    zscore (pool.filter (fun p => decide (p.1 ≠ m))) m = none := by
  induction pool with
  | nil => rfl
  | cons x xs ih =>
    obtain ⟨k, v⟩ := x
    by_cases hk : k = m
    · subst hk
      simpa [List.filter_cons] using ih
    · simp only [List.filter_cons]
      rw [if_pos (by simp [hk])]
      simp only [zscore]
      rw [if_neg hk]
      exact ih

theorem zscore_zadd (pool : List (GoStr × ℚ)) (m : GoStr) (s : ℚ) :
    zscore (zadd pool m s) m = some s := by
  unfold zadd
  rw [zscore_append_of_none _ _ _ (zscore_filter_ne pool m)]
  simp [zscore]

/-! ## Helper lemmas: state plumbing -/

theorem updateMetrics_failing (st : RedisState) (ip : GoStr)
    (r : ValidationResult) (now : ℚ) :
    (updateMetrics st ip r now).failing = st.failing := by
  unfold updateMetrics
  split
  · rfl
  · rfl

theorem updateMetrics_pool (st : RedisState) (ip : GoStr)
    (r : ValidationResult) (now : ℚ) :
    (updateMetrics st ip r now).pool = st.pool := by
  unfold updateMetrics
  split
  · rfl
  · rfl

theorem updateMetrics_metrics_other (st : RedisState) (ip : GoStr)
    (r : ValidationResult) (now : ℚ) (k : GoStr) (hk : k ≠ ip) :
    (updateMetrics st ip r now).metrics k = st.metrics k := by
  unfold updateMetrics
  split
  · rfl
  · simp only [setMetricsHash]
    rw [if_neg hk]

theorem updateMetrics_success (st : RedisState) (ip : GoStr)
    (r : ValidationResult) (now : ℚ) (hf : st.failing = false)
    (hr : r.isAvailable = true) :
    (updateMetrics st ip r now).metrics ip =
      some { success_count := some (((st.metrics ip).getD emptyHash).success_count.getD 0 + 1)
             failure_count := ((st.metrics ip).getD emptyHash).failure_count
             total_latency_ms :=
               some (((st.metrics ip).getD emptyHash).total_latency_ms.getD 0 + r.latencyMs)
             anonymity_level := some r.anonymity
             last_seen_time := some now
             last_success_time := some now
             consecutive_fails := some 0 } := by
  unfold updateMetrics
  rw [hf]
  simp [setMetricsHash, hr]

theorem updateMetrics_failure (st : RedisState) (ip : GoStr)
    (r : ValidationResult) (now : ℚ) (hf : st.failing = false)
    (hr : r.isAvailable = false) :
    (updateMetrics st ip r now).metrics ip =
      some { success_count := ((st.metrics ip).getD emptyHash).success_count
             failure_count := some (((st.metrics ip).getD emptyHash).failure_count.getD 0 + 1)
             total_latency_ms := ((st.metrics ip).getD emptyHash).total_latency_ms
             anonymity_level := ((st.metrics ip).getD emptyHash).anonymity_level
             last_seen_time := some now
             last_success_time := ((st.metrics ip).getD emptyHash).last_success_time
             consecutive_fails :=
               some (((st.metrics ip).getD emptyHash).consecutive_fails.getD 0 + 1) } := by
  unfold updateMetrics
  rw [hf]
  simp [setMetricsHash, hr]

theorem getMetrics_state (st : RedisState) (ip : GoStr) :
    (getMetrics st ip).2 = st := by
  unfold getMetrics
  by_cases hf : st.failing = true
  · rw [if_pos hf]
  · rw [if_neg hf]
    rcases st.metrics ip with _ | h
    · rfl
    · rfl

theorem calculateScore_of_some (st : RedisState) (ip : GoStr) (now : ℚ)
    (h : MetricsHash) (hf : st.failing = false) (hm : st.metrics ip = some h)
    (htot : (parseHash h).successCount + (parseHash h).failureCount ≠ 0) :
    (CalculateScore st ip now).1 = calculateScoreFromMetrics now (parseHash h) := by
  unfold CalculateScore getMetrics
  simp only [hf, Bool.false_eq_true, if_false, hm]
  rw [if_neg htot]

theorem calculateScore_of_none (st : RedisState) (ip : GoStr) (now : ℚ)
    (hf : st.failing = false) (hm : st.metrics ip = none) :
    (CalculateScore st ip now).1 = initialScore := by
  unfold CalculateScore getMetrics
  simp only [hf, Bool.false_eq_true, if_false, hm]

/-! ## Helper lemmas: the score formula versus the spec formula -/

theorem successRate_eq_spec (m : ProxyMetrics)
    (h : m.successCount + m.failureCount ≠ 0) :
    calculateSuccessRateScore m = specSuccessRate m := by
  unfold calculateSuccessRateScore specSuccessRate
  rw [if_neg h]

theorem latency_eq_spec (m : ProxyMetrics) :
    calculateLatencyScore m = specLatency m := by
  unfold calculateLatencyScore specLatency maxLatencyMs
  rfl

theorem anonymity_eq_spec (m : ProxyMetrics) :
    calculateAnonymityScore m = specAnonymity m := by
  unfold calculateAnonymityScore specAnonymity AnonymityScores
  by_cases h1 : m.anonymityLevel = "elite"
  · simp [h1, List.lookup]
  · by_cases h2 : m.anonymityLevel = "anonymous"
    · simp [h1, h2, List.lookup]
    · by_cases h3 : m.anonymityLevel = "transparent"
      · simp [h1, h2, h3, List.lookup]
      · by_cases h4 : m.anonymityLevel = "unknown"
        · simp [h1, h2, h3, h4, List.lookup]
        · have e1 : (m.anonymityLevel == "elite") = false := beq_eq_false_iff_ne.2 h1
          have e2 : (m.anonymityLevel == "anonymous") = false := beq_eq_false_iff_ne.2 h2
          have e3 : (m.anonymityLevel == "transparent") = false := beq_eq_false_iff_ne.2 h3
          have e4 : (m.anonymityLevel == "unknown") = false := beq_eq_false_iff_ne.2 h4
          simp [List.lookup, e1, e2, e3, e4, h1, h2, h3, h4]

theorem stability_eq_spec (now : ℚ) (m : ProxyMetrics) :
    calculateStabilityScore now m = specStability now m := by
  unfold calculateStabilityScore specStability specRecencyBonus recentHours
    maxConsecutiveFails
  have hbonus :
      (match m.lastSuccessTime with
        | none => (0 : ℚ)
        | some t => if now - t < 24 then 1 - (now - t) / 24 else 0) =
      (match m.lastSuccessTime with
        | none => (0 : ℚ)
        | some t => max 0 (1 - (now - t) / 24)) := by
    rcases m.lastSuccessTime with _ | t
    · rfl
    · dsimp only
      rcases lt_or_le (now - t) 24 with hlt | hle
      · rw [if_pos hlt, max_eq_right]
        have : (now - t) / 24 < 1 := by
          rw [div_lt_one (by norm_num : (0:ℚ) < 24)]
          linarith
        linarith
      · rw [if_neg (not_lt.2 hle), max_eq_left]
        have : (1 : ℚ) ≤ (now - t) / 24 := by
          rw [le_div_iff₀ (by norm_num : (0:ℚ) < 24)]
          linarith
        linarith
  rw [hbonus]
  set bonus := (match m.lastSuccessTime with
    | none => (0 : ℚ)
    | some t => max 0 (1 - (now - t) / 24)) with hb
  have hbnn : 0 ≤ bonus := by
    rw [hb]
    rcases m.lastSuccessTime with _ | t
    · exact le_refl 0
    · exact le_max_left 0 _
  apply max_eq_right
  apply mul_nonneg
  · have : min 1 ((m.consecutiveFails : ℚ) / 5) ≤ 1 := min_le_left 1 _
    linarith
  · linarith

theorem scoreFromMetrics_eq_spec (now : ℚ) (m : ProxyMetrics)
    (h : m.successCount + m.failureCount ≠ 0) :
    calculateScoreFromMetrics now m = specScore now m := by
  unfold calculateScoreFromMetrics specScore
  rw [successRate_eq_spec m h, latency_eq_spec m, anonymity_eq_spec m,
    stability_eq_spec now m]
  unfold weightSuccessRate weightLatency weightAnonymity weightStability
  ring_nf

theorem calculateScore_state (st : RedisState) (ip : GoStr) (now : ℚ) :
    (CalculateScore st ip now).2 = st := by
  unfold CalculateScore getMetrics
  by_cases hf : st.failing = true
  · rw [if_pos hf]
  · rw [if_neg hf]
    rcases st.metrics ip with _ | h
    · rfl
    · dsimp only
      by_cases h0 : (parseHash h).successCount + (parseHash h).failureCount = 0
      · rw [if_pos h0]
      · rw [if_neg h0]

/-! ## Helper lemmas: consecutive failures from the cold start -/

theorem applyResults_append (ip : GoStr) (rs : List (ValidationResult × ℚ))
    (x : ValidationResult × ℚ) :
    ∀ st, applyResults st ip (rs ++ [x]) =
      updateMetrics (applyResults st ip rs) ip x.1 x.2 := by
  induction rs with
  | nil =>
    intro st
    obtain ⟨r, t⟩ := x
    rfl
  | cons y rest ih =>
    intro st
    obtain ⟨r, t⟩ := y
    simp only [List.cons_append, applyResults]
    exact ih (updateMetrics st ip r t)

theorem failInv_step (ip : GoStr) (st : RedisState) (k : Nat)
    (r : ValidationResult) (t : ℚ) (hinv : FailInv ip st k)
    (hr : r.isAvailable = false) :
    FailInv ip (updateMetrics st ip r t) (k + 1) := by
  obtain ⟨hf, hcase⟩ := hinv
  refine ⟨by rw [updateMetrics_failing, hf], Or.inr ⟨by omega, t, ?_⟩⟩
  rw [updateMetrics_failure st ip r t hf hr]
  rcases hcase with ⟨hk0, hm⟩ | ⟨hkpos, tl, hm⟩
  · subst hk0
    rw [hm]
    simp [emptyHash, failHash]
  · rw [hm]
    simp only [failHash, Option.getD_some]
    push_cast
    simp [Option.getD]

theorem failInv_applyResults (ip : GoStr) (rs : List (ValidationResult × ℚ)) :
    ∀ st k, FailInv ip st k → allFailures rs →
      FailInv ip (applyResults st ip rs) (k + rs.length) := by
  induction rs with
  | nil =>
    intro st k hinv _
    simpa using hinv
  | cons x rest ih =>
    intro st k hinv hall
    obtain ⟨r, t⟩ := x
    simp only [applyResults]
    have hstep := failInv_step ip st k r t hinv (hall (r, t) (List.mem_cons_self _ _))
    have hrest := ih (updateMetrics st ip (r, t).1 (r, t).2) (k + 1) hstep
      (fun y hy => hall y (List.mem_cons_of_mem _ hy))
    have hlen : k + 1 + rest.length = k + (rest.length + 1) := by omega
    rw [List.length_cons, ← hlen]
    exact hrest

theorem failHash_successRate (k : Int) (tl : ℚ) :
    calculateSuccessRateScore (parseHash (failHash k tl)) = 0 := by
  unfold calculateSuccessRateScore
  simp [parseHash, failHash]

theorem failHash_latency (k : Int) (tl : ℚ) :
    calculateLatencyScore (parseHash (failHash k tl)) = 0 := by
  unfold calculateLatencyScore
  simp [parseHash, failHash]

theorem failHash_anonymity (k : Int) (tl : ℚ) :
    calculateAnonymityScore (parseHash (failHash k tl)) = 0.1 := by
  unfold calculateAnonymityScore
  simp [parseHash, failHash, AnonymityScores, List.lookup]

theorem failHash_stability (now : ℚ) (k : Int) (tl : ℚ) :
    calculateStabilityScore now (parseHash (failHash k tl)) =
      (1 - min 1 ((k : ℚ) / 5)) * 0.5 := by
  unfold calculateStabilityScore maxConsecutiveFails
  simp only [parseHash, failHash, Option.getD_some]
  have h1 : (0 : ℚ) ≤ 1 - min 1 ((k : ℚ) / 5) := by
    have := min_le_left (1 : ℚ) ((k : ℚ) / 5)
    linarith
  have h2 : (0.5 : ℚ) + 0.5 * 0 = 0.5 := by norm_num
  rw [h2, max_eq_right (mul_nonneg h1 (by norm_num))]

theorem score_of_failInv (ip : GoStr) (st : RedisState) (k : Nat) (now : ℚ)
    (hinv : FailInv ip st k) (hk : 0 < k) :
    (CalculateScore st ip now).1 = failScore k := by
  obtain ⟨hf, hcase⟩ := hinv
  rcases hcase with ⟨hk0, _⟩ | ⟨_, tl, hm⟩
  · omega
  · have hkz : (k : Int) ≠ 0 := by
      exact_mod_cast Nat.pos_iff_ne_zero.1 hk
    have htot : (parseHash (failHash (k : Int) tl)).successCount +
        (parseHash (failHash (k : Int) tl)).failureCount ≠ 0 := by
      simp [parseHash, failHash, hkz]
    rw [calculateScore_of_some st ip now _ hf hm htot]
    unfold calculateScoreFromMetrics
    rw [failHash_successRate (k : Int) tl, failHash_latency (k : Int) tl,
      failHash_anonymity (k : Int) tl, failHash_stability now (k : Int) tl]
    unfold weightSuccessRate weightLatency weightAnonymity weightStability failScore
    dsimp only
    push_cast
    set x := min (1 : ℚ) ((k : ℚ) / 5) with hx
    have hx0 : 0 ≤ x := le_min (by norm_num) (by positivity)
    have hx1 : x ≤ 1 := min_le_left 1 _
    rw [min_eq_right (by linarith), max_eq_right (by linarith)]
    ring

theorem failScore_antitone (k : ℕ) : failScore (k + 1) ≤ failScore k := by
  unfold failScore
  have hmin : min (1 : ℚ) ((k : ℚ) / 5) ≤ min 1 (((k + 1 : ℕ) : ℚ) / 5) := by
    apply min_le_min (le_refl 1)
    push_cast
    linarith
  nlinarith [hmin]

theorem failScore_one_le_initial : failScore 1 ≤ initialScore := by
  unfold failScore initialScore
  rw [min_eq_right (by norm_num)]
  norm_num

theorem failScore_of_ge_five (k : ℕ) (h : 5 ≤ k) : failScore k = 0.1 * 0.15 := by
  unfold failScore
  rw [min_eq_left]
  · ring
  · rw [le_div_iff₀ (by norm_num : (0:ℚ) < 5)]
    norm_num
    exact_mod_cast h

/-! ## Claim theorems -/

/-- C2: for every address and every single result, the counter update applies
exactly the documented effects — on success: success_count incremented by 1,
the latency added to total_latency_ms, last_success set to now, the anonymity
level recorded, consecutive_failures reset to 0; on failure: failure_count and
consecutive_failures each incremented by 1 (the always-set last_seen_time
rides along in both cases); other addresses are untouched; and consequently a
successful update followed by a failed update leaves consecutive_failures at
exactly 1 from any starting state. -/
theorem c2_update_effects (st : RedisState) (ip : GoStr) (r : ValidationResult)
    (now : ℚ) (hf : st.failing = false) :
    (r.isAvailable = true →
      (updateMetrics st ip r now).metrics ip =
        some { success_count := some (((st.metrics ip).getD emptyHash).success_count.getD 0 + 1)
               failure_count := ((st.metrics ip).getD emptyHash).failure_count
               total_latency_ms :=
                 some (((st.metrics ip).getD emptyHash).total_latency_ms.getD 0 + r.latencyMs)
               anonymity_level := some r.anonymity
               last_seen_time := some now
               last_success_time := some now
               consecutive_fails := some 0 }) ∧
    (r.isAvailable = false →
      (updateMetrics st ip r now).metrics ip =
        some { success_count := ((st.metrics ip).getD emptyHash).success_count
               failure_count := some (((st.metrics ip).getD emptyHash).failure_count.getD 0 + 1)
               total_latency_ms := ((st.metrics ip).getD emptyHash).total_latency_ms
               anonymity_level := ((st.metrics ip).getD emptyHash).anonymity_level
               last_seen_time := some now
               last_success_time := ((st.metrics ip).getD emptyHash).last_success_time
               consecutive_fails :=
                 some (((st.metrics ip).getD emptyHash).consecutive_fails.getD 0 + 1) }) ∧
    (∀ k, k ≠ ip → (updateMetrics st ip r now).metrics k = st.metrics k) ∧
    (∀ (r1 r2 : ValidationResult) (t1 t2 : ℚ), r1.isAvailable = true →
      r2.isAvailable = false →
      (((updateMetrics (updateMetrics st ip r1 t1) ip r2 t2).metrics ip).getD
          emptyHash).consecutive_fails = some 1) := by
  refine ⟨fun hr => updateMetrics_success st ip r now hf hr,
    fun hr => updateMetrics_failure st ip r now hf hr,
    fun k hk => updateMetrics_metrics_other st ip r now k hk, ?_⟩
  intro r1 r2 t1 t2 h1 h2
  have hsu := updateMetrics_success st ip r1 t1 hf h1
  have hf1 : (updateMetrics st ip r1 t1).failing = false := by
    rw [updateMetrics_failing]
    exact hf
  have hfa := updateMetrics_failure (updateMetrics st ip r1 t1) ip r2 t2 hf1 h2
  rw [hfa, hsu]
  simp

/-- C2 witness: from the fresh store, a success at time 0 then a failure at
time 1 leaves `consecutive_fails` at exactly 1. -/
theorem c2_update_effects_witness :
    (((updateMetrics (updateMetrics freshStore sampleIP sampleSuccess 0) sampleIP
        sampleFailure 1).metrics sampleIP).getD emptyHash).consecutive_fails = some 1 :=
  (c2_update_effects freshStore sampleIP sampleSuccess 0 rfl).2.2.2
    sampleSuccess sampleFailure 0 1 rfl rfl

/-- C5 counterexample: the claim requires the port to be a decimal in
[1, 65535] and parsing to fail outside that range, but `strconv.ParseUint(s,
10, 16)` accepts 0, so `"1.1.1.1:0"` parses successfully to port 0. -/
theorem c5_counterexample :
    parseProxyIdentifier ("1.1.1.1:0".data) = .ok ("1.1.1.1".data, 0) ∧ ¬ 1 ≤ 0 :=
  ⟨rfl, by omega⟩

/-- C5 amended: the member parser splits at the last colon, the left side
being the address (which may contain colons); the right side must be a
nonempty decimal digit string of value at most 65535 — port 0 is accepted, so
the effective port range is [0, 65535]; members with no colon, a non-decimal
port, an empty port, or a value above 65535 fail to parse; and a malformed
member at the top of the pool makes SelectBestProxy log and return the parse
error — the selection fails rather than skipping the member. -/
theorem c5_amended :
    (∀ identifier : GoStr, ':' ∉ identifier →
      parseProxyIdentifier identifier = .error .invalidFormat) ∧
    (∀ a ds : GoStr, ':' ∉ ds → ds ≠ [] → ds.all Char.isDigit = true →
      digitsToNat ds ≤ 65535 →
      parseProxyIdentifier (a ++ ':' :: ds) = .ok (a, digitsToNat ds)) ∧
    (∀ a ds : GoStr, ':' ∉ ds → ds.all Char.isDigit = false →
      parseProxyIdentifier (a ++ ':' :: ds) = .error .invalidPort) ∧
    (∀ a ds : GoStr, ':' ∉ ds → 65535 < digitsToNat ds →
      parseProxyIdentifier (a ++ ':' :: ds) = .error .invalidPort) ∧
    (∀ a : GoStr, parseProxyIdentifier (a ++ [':']) = .error .invalidPort) ∧
    (∀ (st : RedisState) (req : ScheduleRequest) (mem : GoStr) (sc : ℚ)
        (e : SchedErr), st.failing = false → st.pool = [(mem, sc)] →
      parseProxyIdentifier mem = .error e →
      SelectBestProxy st req = .error e) := by
  refine ⟨parseProxyIdentifier_no_colon, parseProxyIdentifier_ok_digits,
    parseProxyIdentifier_not_digits, parseProxyIdentifier_overflow,
    parseProxyIdentifier_empty_port, ?_⟩
  intro st req mem sc e hf hpool hparse
  unfold SelectBestProxy
  simp only [hf, Bool.false_eq_true, if_false, hpool, zTop]
  rw [hparse]

/-- C5 amended witness: a member with no colon fails to parse with the
invalid-format error. -/
theorem c5_amended_witness :
    parseProxyIdentifier ("1-1-1-1".data) = .error .invalidFormat :=
  c5_amended.1 ("1-1-1-1".data) (by decide)

/-- C7: formatting `(address, port)` as `"<address>:<port>"` and parsing it
back yields the same pair, for every address (including those containing
colons, such as IPv6 literals) and every port in [1, 65535]. -/
theorem c7_format_parse_roundtrip (addr : GoStr) (port : Nat)
    (_h1 : 1 ≤ port) (h2 : port ≤ 65535) :
    parseProxyIdentifier (formatProxyIdentifier addr port) = .ok (addr, port) :=
  parse_format_roundtrip addr port h2

/-- C7 witness: the IPv6 literal member `[::1]:8888` round-trips. -/
theorem c7_format_parse_roundtrip_witness :
    parseProxyIdentifier (formatProxyIdentifier ("[::1]".data) 8888) =
      .ok ("[::1]".data, 8888) :=
  c7_format_parse_roundtrip ("[::1]".data) 8888 (by decide) (by decide)

/-- C8: the Webshare normalization keeps exactly the `valid = true` entries,
in upstream order, each field-for-field equal to the normalization of its
source entry; entries with `valid = false` yield no record; and the decoded
fetch path returns exactly this normalization of the payload's results. -/
theorem c8_webshare_normalization :
    (∀ l : List WebshareProxy,
      toProxyIPs l = (l.filter (fun p => p.valid)).map toProxyIP) ∧
    (∀ l : List WebshareProxy,
      (toProxyIPs l).length = l.countP (fun p => p.valid)) ∧
    (∀ resp : WebshareResponse,
      getProxyListFromResponse resp =
        (resp.results.filter (fun p => p.valid)).map toProxyIP) := by
  have key : ∀ l : List WebshareProxy,
      toProxyIPs l = (l.filter (fun p => p.valid)).map toProxyIP := by
    intro l
    induction l with
    | nil => rfl
    | cons p ps ih =>
      by_cases hv : p.valid <;> simp [toProxyIPs, List.filter_cons, hv, ih]
  refine ⟨key, fun l => ?_, fun resp => key resp.results⟩
  rw [key l]
  simp [← List.countP_eq_length_filter]

/-- C10: computing a score performs no writes — after any CalculateScore call
(on any store state: missing key, present key, or a failing store) the
counter store and the LivePool are exactly what they were before, and the
same holds for the underlying metrics read. -/
theorem c10_calculateScore_pure (st : RedisState) (ip : GoStr) (now : ℚ) :
    (CalculateScore st ip now).2 = st ∧ (getMetrics st ip).2 = st :=
  ⟨calculateScore_state st ip now, getMetrics_state st ip⟩

/-- C1: whenever the metrics record exists and has success_count +
failure_count > 0, CalculateScore returns exactly the spec's clamped weighted
formula (0.50·successRate + 0.30·latency + 0.15·anonymity + 0.05·stability
with the spec's sub-scores); and on the seeded good-proxy metrics
(success=100, failure=5, total_latency_ms=20000, elite, last success one hour
ago, no consecutive failures) the score is within 0.01 of 0.963. -/
theorem c1_score_formula :
    (∀ (st : RedisState) (ip : GoStr) (now : ℚ) (h : MetricsHash),
      st.failing = false → st.metrics ip = some h →
      0 < (parseHash h).successCount + (parseHash h).failureCount →
      (CalculateScore st ip now).1 = specScore now (parseHash h)) ∧
    |(CalculateScore goodSeedStore sampleIP 1).1 - 963 / 1000| ≤ 1 / 100 := by
  constructor
  · intro st ip now h hf hm htot
    rw [calculateScore_of_some st ip now h hf hm (by omega)]
    exact scoreFromMetrics_eq_spec now (parseHash h) (by omega)
  · have h1 : (CalculateScore goodSeedStore sampleIP 1).1 = 161809 / 168000 := by
      simp [CalculateScore, getMetrics, goodSeedStore, goodSeedHash, parseHash,
        calculateScoreFromMetrics, calculateSuccessRateScore, calculateLatencyScore,
        calculateAnonymityScore, calculateStabilityScore, AnonymityScores,
        weightSuccessRate, weightLatency, weightAnonymity, weightStability,
        maxLatencyMs, maxConsecutiveFails, recentHours, List.lookup]
      norm_num
    rw [h1, abs_le]
    constructor <;> norm_num

/-- C1 witness: the formula clause applied to the seeded good-proxy store. -/
theorem c1_score_formula_witness :
    (CalculateScore goodSeedStore sampleIP 1).1 = specScore 1 (parseHash goodSeedHash) :=
  c1_score_formula.1 goodSeedStore sampleIP 1 goodSeedHash rfl rfl (by decide)

/-- C3 counterexample: with a single live-pool member whose per-address
metrics classify it as transparent and a request that does not allow insecure
proxies, the claim requires ErrNoProxyAvailable, but SelectBestProxy returns
that member — the code never consults the filter. -/
theorem c3_counterexample :
    SelectBestProxy transparentStore secureRequest =
        .ok (selectedProxy ("9.9.9.9".data) 8080) ∧
    secureRequest.allowInsecure = false ∧
    ¬ specAnonymityFilterOK transparentStore secureRequest ("9.9.9.9".data) := by
  refine ⟨rfl, rfl, ?_⟩
  intro hor
  rcases hor with hins | ⟨h, hh, hanon⟩
  · exact absurd hins (by decide)
  · have hm : transparentStore.metrics ("9.9.9.9".data) = some transparentHash := rfl
    rw [hm] at hh
    cases hh
    exact absurd hanon (by decide)

/-- C3 amended: SelectBestProxy retrieves only the single highest-scored
member and ignores the request filter entirely (identical output for every
request); an empty pool yields the redis.Nil no-proxy sentinel; when it
returns a proxy, that proxy is the parse of a member of maximal score. -/
theorem c3_amended (st : RedisState) (req : ScheduleRequest) :
    (st.failing = false → st.pool = [] →
      SelectBestProxy st req = .error .redisNil) ∧
    (∀ p, SelectBestProxy st req = .ok p →
      ∃ mem sc, (mem, sc) ∈ st.pool ∧
        parseProxyIdentifier mem = .ok (p.address, p.port) ∧
        ∀ q ∈ st.pool, q.2 ≤ sc) ∧
    (∀ req2, SelectBestProxy st req = SelectBestProxy st req2) := by
  refine ⟨?_, ?_, fun req2 => rfl⟩
  · intro hf hpool
    unfold SelectBestProxy
    simp [hf, hpool, zTop]
  · intro p hp
    unfold SelectBestProxy at hp
    by_cases hf : st.failing = true
    · rw [if_pos hf] at hp
      exact absurd hp (by simp)
    · rw [if_neg hf] at hp
      rcases hz : zTop st.pool with _ | y
      · rw [hz] at hp
        exact absurd hp (by simp)
      · rw [hz] at hp
        obtain ⟨mem, sc⟩ := y
        dsimp only at hp
        rcases hparse : parseProxyIdentifier mem with e | pair
        · rw [hparse] at hp
          exact absurd hp (by simp)
        · rw [hparse] at hp
          obtain ⟨ip, port⟩ := pair
          have hpeq : selectedProxy ip port = p := by
            simpa using hp
          rcases zTop_spec st.pool with ⟨hnone, _⟩ | ⟨y', hy', hmem, hmax⟩
          · rw [hz] at hnone
            exact absurd hnone (by simp)
          · rw [hz] at hy'
            cases hy'
            refine ⟨mem, sc, hmem, ?_, hmax⟩
            rw [hparse, ← hpeq]
            rfl

/-- C3 amended witness: selecting from the empty fresh store yields the
no-proxy sentinel. -/
theorem c3_amended_witness :
    SelectBestProxy freshStore secureRequest = .error .redisNil :=
  (c3_amended freshStore secureRequest).1 rfl rfl

/-- C4 counterexample: the claim's case-insensitive key matching would
classify a body whose header map carries `PROXY-CONNECTION` (which lowercases
to the same string as the claimed key `Proxy-Connection`) as anonymous, but
the code matches keys literally and classifies it as elite. -/
theorem c4_counterexample :
    detectAnonymity [] (some upperCaseHeaderBody) = "elite" ∧
    claimedDetectAnonymity [] (some upperCaseHeaderBody) = "anonymous" ∧
    "PROXY-CONNECTION".data.map Char.toLower =
      "Proxy-Connection".data.map Char.toLower :=
  ⟨rfl, rfl, rfl⟩

theorem detectAnonymity_some (pub : GoStr) (r : HttpbinResponse) :
    detectAnonymity pub (some r) =
      if (decide (pub ≠ []) && r.headers.any fun kv => goContains kv.2 pub) = true
      then "transparent"
      else if (proxyHeaderKeys.any fun key =>
          r.headers.any fun kv => decide (kv.1 = key)) = true
      then "anonymous" else "elite" := rfl

/-- C4 amended: on a successfully fetched body that passes the must_contain
check, availability is true whatever the classification; classification
order is: undecodable body → unknown; else transparent when the validator's
public IP is non-empty and a substring of some header value; else anonymous
when some header key matches the literal key list {Via, via,
X-Forwarded-For, x-forwarded-for, Forwarded, forwarded, X-Proxy-Id,
Proxy-Connection} exactly (not case-insensitively); else elite. -/
theorem c4_amended :
    (∀ (pub : GoStr) (tgt : CheckTarget) (lat : Int) (body : RawBody),
      (tgt.mustContain = [] ∨ goContains body.text tgt.mustContain = true) →
      validateBodyPhase pub tgt lat body =
        { isAvailable := true, latencyMs := lat
          anonymity := detectAnonymity pub body.decoded, errorMessage := "" }) ∧
    (∀ pub : GoStr, detectAnonymity pub none = "unknown") ∧
    (∀ (pub : GoStr) (r : HttpbinResponse), pub ≠ [] →
      (∃ kv ∈ r.headers, pub <:+: kv.2) →
      detectAnonymity pub (some r) = "transparent") ∧
    (∀ (pub : GoStr) (r : HttpbinResponse),
      (pub = [] ∨ ∀ kv ∈ r.headers, ¬ pub <:+: kv.2) →
      (∃ kv ∈ r.headers, kv.1 ∈ proxyHeaderKeys) →
      detectAnonymity pub (some r) = "anonymous") ∧
    (∀ (pub : GoStr) (r : HttpbinResponse),
      (pub = [] ∨ ∀ kv ∈ r.headers, ¬ pub <:+: kv.2) →
      (∀ kv ∈ r.headers, kv.1 ∉ proxyHeaderKeys) →
      detectAnonymity pub (some r) = "elite") := by
  have htransFalse : ∀ (pub : GoStr) (r : HttpbinResponse),
      (pub = [] ∨ ∀ kv ∈ r.headers, ¬ pub <:+: kv.2) →
      (decide (pub ≠ []) && r.headers.any fun kv => goContains kv.2 pub) = false := by
    intro pub r hnt
    rcases hnt with rfl | hall
    · simp
    · have hany : (r.headers.any fun kv => goContains kv.2 pub) = false := by
        rw [List.any_eq_false]
        intro kv hkv
        simp only [goContains, decide_eq_true_eq]
        exact hall kv hkv
      simp [hany]
  refine ⟨?_, fun pub => rfl, ?_, ?_, ?_⟩
  · intro pub tgt lat body hmc
    rcases hmc with hmc | hmc
    · simp [validateBodyPhase, hmc]
    · simp [validateBodyPhase, hmc]
  · intro pub r hpub hex
    have hcond : (decide (pub ≠ []) && r.headers.any fun kv => goContains kv.2 pub)
        = true := by
      rw [Bool.and_eq_true]
      refine ⟨decide_eq_true hpub, ?_⟩
      rw [List.any_eq_true]
      obtain ⟨kv, hkv, hinf⟩ := hex
      exact ⟨kv, hkv, decide_eq_true hinf⟩
    rw [detectAnonymity_some, if_pos hcond]
  · intro pub r hnt hex
    have hkeys : (proxyHeaderKeys.any fun key =>
        r.headers.any fun kv => decide (kv.1 = key)) = true := by
      rw [List.any_eq_true]
      obtain ⟨kv, hkv, hkey⟩ := hex
      refine ⟨kv.1, hkey, ?_⟩
      rw [List.any_eq_true]
      exact ⟨kv, hkv, by simp⟩
    rw [detectAnonymity_some, if_neg (by rw [htransFalse pub r hnt]; simp),
      if_pos hkeys]
  · intro pub r hnt hnokeys
    have hkeys : (proxyHeaderKeys.any fun key =>
        r.headers.any fun kv => decide (kv.1 = key)) = false := by
      rw [List.any_eq_false]
      intro key hkey
      simp only [List.any_eq_true, decide_eq_true_eq, not_exists, not_and]
      intro kv hkv heq
      exact hnokeys kv hkv (heq ▸ hkey)
    rw [detectAnonymity_some, if_neg (by rw [htransFalse pub r hnt]; simp),
      if_neg (by rw [hkeys]; simp)]

/-- C4 amended witness: a body echoing the validator's public IP inside
X-Forwarded-For is classified transparent. -/
theorem c4_amended_witness :
    detectAnonymity ("7.7.7.7".data)
        (some ⟨"5.5.5.5".data, [("X-Forwarded-For".data, "7.7.7.7".data)]⟩) =
      "transparent" :=
  c4_amended.2.2.1 ("7.7.7.7".data)
    ⟨"5.5.5.5".data, [("X-Forwarded-For".data, "7.7.7.7".data)]⟩
    (by decide)
    ⟨("X-Forwarded-For".data, "7.7.7.7".data), by decide, by decide⟩

theorem removeProxyFromPool_failing (st : RedisState) (p : ProxyIP) :
    (RemoveProxyFromPool st p).failing = st.failing := by
  unfold RemoveProxyFromPool RemoveProxyMetrics zRemState
  by_cases h : st.failing = true
  · simp [h]
  · simp [h]

theorem removeProxyFromPool_metrics_self (st : RedisState) (p : ProxyIP)
    (hf : st.failing = false) :
    (RemoveProxyFromPool st p).metrics p.address = none := by
  unfold RemoveProxyFromPool RemoveProxyMetrics zRemState
  simp [hf]

/-- C9: reporting usage always upserts the `"<address>:<port>"` member into
the pool with the freshly recomputed score, whatever the pool held before;
in particular after a retirement (member removed, metrics deleted) a usage
report re-inserts the member, the metrics hash having been re-created from
scratch by the update — holding exactly the data of that one usage result. -/
theorem c9_usage_reinserts (st : RedisState) (usage : UsageResult) (now : ℚ)
    (hf : st.failing = false) :
    (zscore (UpdateProxyUsage st usage now).pool
        (formatProxyIdentifier usage.proxy.address usage.proxy.port) =
      some ((CalculateScore
          (updateMetrics st usage.proxy.address (liftUsage usage) now)
          usage.proxy.address now).1)) ∧
    (∃ q, zscore (UpdateProxyUsage (RemoveProxyFromPool st usage.proxy) usage now).pool
        (formatProxyIdentifier usage.proxy.address usage.proxy.port) = some q) ∧
    ((RemoveProxyFromPool st usage.proxy).metrics usage.proxy.address = none) ∧
    (usage.success = true →
      (UpdateProxyUsage (RemoveProxyFromPool st usage.proxy) usage now).metrics
          usage.proxy.address =
        some ⟨some 1, none, some usage.latencyMs, some "unknown",
          some now, some now, some 0⟩) ∧
    (usage.success = false →
      (UpdateProxyUsage (RemoveProxyFromPool st usage.proxy) usage now).metrics
          usage.proxy.address =
        some ⟨none, some 1, none, none, some now, none, some 1⟩) := by
  have hfr : (RemoveProxyFromPool st usage.proxy).failing = false := by
    rw [removeProxyFromPool_failing]
    exact hf
  have main : ∀ st2 : RedisState, st2.failing = false →
      zscore (UpdateProxyUsage st2 usage now).pool
          (formatProxyIdentifier usage.proxy.address usage.proxy.port) =
        some ((CalculateScore
            (updateMetrics st2 usage.proxy.address (liftUsage usage) now)
            usage.proxy.address now).1) := by
    intro st2 hf2
    unfold UpdateProxyUsage
    dsimp only
    rw [calculateScore_state]
    unfold zAddState
    have hf1 : (updateMetrics st2 usage.proxy.address (liftUsage usage) now).failing
        = false := by
      rw [updateMetrics_failing]
      exact hf2
    rw [if_neg (by rw [hf1]; simp)]
    exact zscore_zadd _ _ _
  have hmet : (UpdateProxyUsage (RemoveProxyFromPool st usage.proxy) usage now).metrics =
      (updateMetrics (RemoveProxyFromPool st usage.proxy) usage.proxy.address
        (liftUsage usage) now).metrics := by
    unfold UpdateProxyUsage
    dsimp only
    rw [calculateScore_state]
    unfold zAddState
    by_cases h : (updateMetrics (RemoveProxyFromPool st usage.proxy)
        usage.proxy.address (liftUsage usage) now).failing = true
    · rw [if_pos h]
    · rw [if_neg h]
  have hnone := removeProxyFromPool_metrics_self st usage.proxy hf
  refine ⟨main st hf, ⟨_, main _ hfr⟩, hnone, ?_, ?_⟩
  · intro hs
    rw [hmet, updateMetrics_success _ _ _ _ hfr (by simp [liftUsage, hs])]
    rw [hnone]
    simp [emptyHash, liftUsage]
  · intro hs
    rw [hmet, updateMetrics_failure _ _ _ _ hfr (by simp [liftUsage, hs])]
    rw [hnone]
    simp [emptyHash, liftUsage]

/-- C9 witness: the retire-then-report scenario at the fresh store with one
successful 100 ms usage of `2.2.2.2:8888`. -/
theorem c9_usage_reinserts_witness :
    (UpdateProxyUsage (RemoveProxyFromPool freshStore sampleUsage.proxy)
        sampleUsage 0).metrics sampleUsage.proxy.address =
      some ⟨some 1, none, some 100, some "unknown", some 0, some 0, some 0⟩ :=
  (c9_usage_reinserts freshStore sampleUsage 0 rfl).2.2.2.1 rfl

/-- C6: applying one more failure to any run of consecutive failures from the
cold start never increases the computed score (so the score is monotonically
non-increasing in the failure count, starting from the initial 0.5); and once
at least 5 consecutive failures have accumulated the score is at most the
successRate, latency and anonymity terms alone — the stability contribution
is exactly zero. -/
theorem c6_cold_start_failures (ip : GoStr) (now : ℚ)
    (rs : List (ValidationResult × ℚ)) (x : ValidationResult × ℚ)
    (hall : allFailures rs) (hx : x.1.isAvailable = false) :
    scoreAfterResults ip (rs ++ [x]) now ≤ scoreAfterResults ip rs now ∧
    (5 ≤ rs.length →
      (scoreAfterResults ip rs now ≤
        calculateSuccessRateScore (parseHash
            (((applyResults freshStore ip rs).metrics ip).getD emptyHash)) *
          weightSuccessRate +
        calculateLatencyScore (parseHash
            (((applyResults freshStore ip rs).metrics ip).getD emptyHash)) *
          weightLatency +
        calculateAnonymityScore (parseHash
            (((applyResults freshStore ip rs).metrics ip).getD emptyHash)) *
          weightAnonymity) ∧
      calculateStabilityScore now (parseHash
          (((applyResults freshStore ip rs).metrics ip).getD emptyHash)) = 0) := by
  have hbase : FailInv ip freshStore 0 := ⟨rfl, Or.inl ⟨rfl, rfl⟩⟩
  have hinv : FailInv ip (applyResults freshStore ip rs) rs.length := by
    have := failInv_applyResults ip rs freshStore 0 hbase hall
    simpa using this
  have hinv' : FailInv ip (applyResults freshStore ip (rs ++ [x])) (rs.length + 1) := by
    rw [applyResults_append]
    exact failInv_step ip _ rs.length x.1 x.2 hinv hx
  constructor
  · rcases Nat.eq_zero_or_pos rs.length with h0len | hpos
    · have hrs : rs = [] := List.length_eq_zero.1 h0len
      subst hrs
      have hs0 : scoreAfterResults ip [] now = initialScore :=
        calculateScore_of_none freshStore ip now rfl rfl
      have hs1 : scoreAfterResults ip ([] ++ [x]) now = failScore 1 := by
        unfold scoreAfterResults
        exact score_of_failInv ip _ 1 now (by simpa using hinv') (by omega)
      rw [hs0, hs1]
      exact failScore_one_le_initial
    · have hs := score_of_failInv ip _ rs.length now hinv hpos
      have hs' := score_of_failInv ip _ (rs.length + 1) now hinv' (by omega)
      unfold scoreAfterResults
      rw [hs, hs']
      exact failScore_antitone rs.length
  · intro h5
    have hpos : 0 < rs.length := by omega
    obtain ⟨hf, hcase⟩ := hinv
    rcases hcase with ⟨h0len, _⟩ | ⟨_, tl, hm⟩
    · omega
    · have hscore := score_of_failInv ip _ rs.length now
        ⟨hf, Or.inr ⟨hpos, tl, hm⟩⟩ hpos
      unfold scoreAfterResults
      rw [hm]
      simp only [Option.getD_some]
      have hmin : min (1 : ℚ) ((rs.length : ℚ) / 5) = 1 := by
        rw [min_eq_left]
        rw [le_div_iff₀ (by norm_num : (0:ℚ) < 5)]
        norm_num
        exact_mod_cast h5
      constructor
      · rw [hscore, failScore_of_ge_five rs.length h5, failHash_successRate,
          failHash_latency, failHash_anonymity]
        unfold weightSuccessRate weightLatency weightAnonymity
        norm_num
      · rw [failHash_stability]
        push_cast
        rw [hmin]
        ring

/-- C6 witness: five failures then a sixth at a concrete address — the score
does not increase, and the stability sub-score at five failures is zero. -/
theorem c6_cold_start_failures_witness :
    scoreAfterResults (['a']) (fiveFailures ++ [(sampleFailure, 0)]) 0 ≤
        scoreAfterResults (['a']) fiveFailures 0 ∧
    calculateStabilityScore 0 (parseHash
        (((applyResults freshStore (['a']) fiveFailures).metrics (['a'])).getD
          emptyHash)) = 0 :=
  ⟨(c6_cold_start_failures (['a']) 0 fiveFailures (sampleFailure, 0)
      (by unfold allFailures; decide) (by decide)).1,
   ((c6_cold_start_failures (['a']) 0 fiveFailures (sampleFailure, 0)
      (by unfold allFailures; decide) (by decide)).2 (by decide)).2⟩
